import Mathlib

/-!
Verification development for the gomatrix sync engine.

Part 1 embeds src/sync.go: the DefaultSyncer response decomposer
(ProcessResponse, shouldProcessResponse) and the default failure policy
(OnFailedSync).  Part 2 embeds the queue-based event listener
(defaultListener: On, call, scanEvents, stop).

Go maps are modelled as association lists (iteration order is the list
order; Go map iteration order is unspecified, and no claim pins a room
order).  Sends on the events channel are modelled by returning the list
of event values sent, in order.  A Go error is modelled as Option String
(none = nil).
-/

/-- Modelled from the spec: a JSON value stored in the free-form content
mapping of an event.  The code only ever asks whether a content entry is
a string (the type assertion m.(string) in shouldProcessResponse), so
all non-string JSON values are collapsed into one constructor. -/
inductive JsonValue where
  | str (s : String)
  | other
deriving DecidableEq

/-- Modelled from the spec: the Event record ("a discriminated record with
a type tag, an optional room identifier, an optional state-key, a free-form
content mapping, and protocol metadata").  The Go struct fields used by
src/sync.go are Type, StateKey (a nullable string), Content (a map from
string to JSON value) and RoomID; sender and timestamp are the protocol
metadata. -/
structure Event where
  type : String
  roomID : String
  stateKey : Option String
  content : List (String × JsonValue)
  sender : String
  timestamp : Int
deriving DecidableEq

/-- Modelled from the spec: the event type of persistent membership state
events (the MemberEventType constant compared against Event.Type in
shouldProcessResponse). -/
def MemberEventType : String := "m.room.member"

/-- Modelled from the spec: the per-room data of a room in the "joined"
category of a poll response: state events, timeline events and ephemeral
events, each an ordered sequence (the fields State.Events, Timeline.Events
and Ephemeral.Events read by ProcessResponse). -/
structure JoinedRoomData where
  stateEvents : List Event
  timelineEvents : List Event
  ephemeralEvents : List Event
deriving DecidableEq

/-- Modelled from the spec: the per-room data of a room in the "invited"
category (only State.Events is read by ProcessResponse). -/
structure InvitedRoomData where
  stateEvents : List Event
deriving DecidableEq

/-- Modelled from the spec: the per-room data of a room in the "left"
category (only Timeline.Events is read by ProcessResponse). -/
structure LeftRoomData where
  timelineEvents : List Event
deriving DecidableEq

/-- Modelled from the spec: the Rooms part of a poll response: maps from
room identifier to room data for the "joined", "invited" and "left"
categories.  Go maps are modelled as association lists. -/
structure RoomsData where
  join : List (String × JoinedRoomData)
  invite : List (String × InvitedRoomData)
  leave : List (String × LeftRoomData)
deriving DecidableEq

/-- Modelled from the spec: the poll response RespSync with the fields read
by src/sync.go: AccountData.Events, Presence.Events and Rooms. -/
structure RespSync where
  accountDataEvents : List Event
  presenceEvents : List Event
  rooms : RoomsData
deriving DecidableEq

/-- The DefaultSyncer of src/sync.go.  Only UserID is data; the events
channel is modelled by returning the list of sent events. -/
structure DefaultSyncer where
  userID : String
deriving DecidableEq

/-- Setting event.RoomID = roomID before a send, as done in the room loops
of ProcessResponse (src/sync.go lines 58 to 83). -/
def stampRoomID (rid : String) (e : Event) : Event := { e with roomID := rid }

/-- The inner timeline scan of shouldProcessResponse (src/sync.go lines
101 to 119), run on the timeline already reversed to most-recent-first
order.  Returns true when it reaches an m.room.member event whose StateKey
is the user and whose content field "membership" is the string "join";
events whose membership entry is absent or not a string are skipped
(the continue on the failed type assertion), and a string membership other
than "join" falls through to the next older event. -/
def timelineScanJoin (u : String) : List Event → Bool
  | [] => false
  | e :: rest =>
    if e.type == MemberEventType && e.stateKey == some u then
      match e.content.lookup "membership" with
      | some (JsonValue.str mship) =>
        if mship == "join" then true else timelineScanJoin u rest
      | _ => timelineScanJoin u rest
    else timelineScanJoin u rest

/-- The timeline test of shouldProcessResponse as a predicate on the
timeline in its stored (oldest-first) order: the loop
for i := len(events)-1; i >= 0; i-- scans the reverse. -/
def hasOwnJoin (u : String) (timeline : List Event) : Bool :=
  timelineScanJoin u timeline.reverse

/-- delete(resp.Rooms.Join, roomID) and delete(resp.Rooms.Invite, roomID)
from src/sync.go lines 114 and 115: remove the entry of one room id from
both the joined and the invited maps. -/
def deleteRoom (resp : RespSync) (rid : String) : RespSync :=
  { resp with rooms :=
      { resp.rooms with
          join := resp.rooms.join.filter (fun q => !(q.1 == rid)),
          invite := resp.rooms.invite.filter (fun q => !(q.1 == rid)) } }

/-- The body of the per-room loop of shouldProcessResponse (src/sync.go
lines 101 to 119) for one joined room: scan the reversed timeline; on a
matching join event, re-check that the room id is (still) a key of the
joined map (the ok re-check on line 110), then delete the room from both
maps and break; on a failed re-check, continue with the next older event. -/
def scanAndMaybeDelete (u : String) (resp : RespSync) (rid : String) :
    List Event → RespSync
  | [] => resp
  | e :: rest =>
    if e.type == MemberEventType && e.stateKey == some u then
      match e.content.lookup "membership" with
      | some (JsonValue.str mship) =>
        if mship == "join" then
          if (resp.rooms.join.lookup rid).isSome then deleteRoom resp rid
          else scanAndMaybeDelete u resp rid rest
        else scanAndMaybeDelete u resp rid rest
      | _ => scanAndMaybeDelete u resp rid rest
    else scanAndMaybeDelete u resp rid rest

/-- The outer per-room loop of shouldProcessResponse (src/sync.go lines
100 to 120): fold the scan-and-delete of one joined room over the list of
joined-room entries being iterated, threading the mutated response. -/
def dedupFold (u : String) (todo : List (String × JoinedRoomData))
    (r : RespSync) : RespSync :=
  todo.foldl (fun acc p => scanAndMaybeDelete u acc p.1 p.2.timelineEvents.reverse) r

/-- DefaultSyncer.shouldProcessResponse (src/sync.go lines 89 to 122).
Returns the boolean and the possibly mutated response: false and the
untouched response when since is empty; otherwise it folds the per-room
scan-and-delete over all rooms of the joined category and returns true. -/
def shouldProcessResponse (s : DefaultSyncer) (resp : RespSync)
    (since : String) : Bool × RespSync :=
  if since = "" then (false, resp)
  else (true, dedupFold s.userID resp.rooms.join resp)

/-- The joined-rooms emission loop of ProcessResponse (src/sync.go lines
58 to 71): for each joined room, its state events, then its timeline
events, then its ephemeral events, each stamped with the room id. -/
def emitJoined : List (String × JoinedRoomData) → List Event
  | [] => []
  | (rid, rd) :: rest =>
      rd.stateEvents.map (stampRoomID rid)
        ++ rd.timelineEvents.map (stampRoomID rid)
        ++ rd.ephemeralEvents.map (stampRoomID rid)
        ++ emitJoined rest

/-- The invited-rooms emission loop of ProcessResponse (src/sync.go lines
72 to 77): for each invited room, its state events stamped with the room
id. -/
def emitInvited : List (String × InvitedRoomData) → List Event
  | [] => []
  | (rid, rd) :: rest => rd.stateEvents.map (stampRoomID rid) ++ emitInvited rest

/-- The left-rooms emission loop of ProcessResponse (src/sync.go lines 78
to 83): for each left room, its timeline events stamped with the room
id. -/
def emitLeft : List (String × LeftRoomData) → List Event
  | [] => []
  | (rid, rd) :: rest => rd.timelineEvents.map (stampRoomID rid) ++ emitLeft rest

/-- The full emission sequence of ProcessResponse: account data events,
presence events (both sent as decoded, without stamping), then the three
room categories. -/
def emittedEvents (res : RespSync) : List Event :=
  res.accountDataEvents ++ res.presenceEvents
    ++ emitJoined res.rooms.join
    ++ emitInvited res.rooms.invite
    ++ emitLeft res.rooms.leave

/-- DefaultSyncer.ProcessResponse (src/sync.go lines 40 to 85).  Returns
the list of events sent on the events channel, the response after the
mutation done by shouldProcessResponse, and the returned error.  In this
model a channel send always succeeds, so the recover in ProcessResponse
never fires and the error is always none. -/
def ProcessResponse (s : DefaultSyncer) (res : RespSync) (since : String) :
    List Event × RespSync × Option String :=
  match shouldProcessResponse s res since with
  | (false, res1) => ([], res1, none)
  | (true, res1) => (emittedEvents res1, res1, none)

/-- One nanosecond count of time.Second, the unit of Go time.Duration. -/
def timeSecond : Nat := 1000000000

/-- DefaultSyncer.OnFailedSync (src/sync.go lines 125 to 127): always a
10 second wait and a nil fatal error, for every response (possibly nil)
and every error. -/
def OnFailedSync (_s : DefaultSyncer) (_res : Option RespSync)
    (_err : String) : Nat × Option String :=
  (10 * timeSecond, none)

/-- Modelled from the spec: the retry behaviour of the sync loop on a run
of consecutive transport failures (spec section 4.1 step 3, the loop body
itself is not under src/): each failure is fed to the failure policy; the
returned delay is slept; a non-nil fatal error terminates the run.  The
result is the list of delays slept and the fatal error, if any. -/
def consecutiveFailures (s : DefaultSyncer) :
    List (Option RespSync × String) → List Nat × Option String
  | [] => ([], none)
  | (r, e) :: rest =>
    match OnFailedSync s r e with
    | (d, some fatal) => ([d], some fatal)
    | (d, none) =>
      match consecutiveFailures s rest with
      | (ds, f) => (d :: ds, f)

/-!
Part 2: the queue-based event listener (defaultListener in the unnamed
repository file).  A Go callback value is modelled by an optional
Callback record (none is the nil function value); invoking a callback
whose panics field is some msg panics with that payload, and invoking the
nil function value panics with the runtime nil-dereference message.  The
sync.RWMutex is modelled as an explicit state machine; its operations
follow the documented Go semantics: Unlock is a run-time fault unless the
mutex is locked for writing, RUnlock is a run-time fault unless it is
locked for reading, and Lock or RLock block rather than fault when the
mutex is held incompatibly.
-/

/-- A registered callback handle: an identity and, when the panics field
is some payload, the behaviour of panicking with that payload once
invoked.  A Go function value of type EventListenerCallback is an
Option Callback, with none standing for the nil function value. -/
structure Callback where
  id : Nat
  panics : Option String
deriving DecidableEq

/-- The panic payload of calling a nil Go function value. -/
def nilFuncPanicMsg : String :=
  "runtime error: invalid memory address or nil pointer dereference"

/-- State of a sync.RWMutex: unlocked, read-locked by a positive number of
readers, or write-locked. -/
inductive MutexState where
  | unlocked
  | readLocked (readers : Nat)
  | writeLocked
deriving DecidableEq

/-- Outcome of one mutex operation by a single goroutine: the new state,
or the operation blocks, or it is a run-time fault of the sync package
(an unrecoverable fatal error, not a panic). -/
inductive MutexRes where
  | ok (s : MutexState)
  | blocks
  | fatal
deriving DecidableEq

/-- sync.RWMutex.RLock. -/
def mutexRLock : MutexState → MutexRes
  | MutexState.unlocked => MutexRes.ok (MutexState.readLocked 1)
  | MutexState.readLocked n => MutexRes.ok (MutexState.readLocked (n + 1))
  | MutexState.writeLocked => MutexRes.blocks

/-- sync.RWMutex.RUnlock: a run-time fault unless read-locked. -/
def mutexRUnlock : MutexState → MutexRes
  | MutexState.readLocked 1 => MutexRes.ok MutexState.unlocked
  | MutexState.readLocked (n + 2) => MutexRes.ok (MutexState.readLocked (n + 1))
  | _ => MutexRes.fatal

/-- sync.RWMutex.Lock. -/
def mutexLock : MutexState → MutexRes
  | MutexState.unlocked => MutexRes.ok MutexState.writeLocked
  | _ => MutexRes.blocks

/-- sync.RWMutex.Unlock: per the Go sync documentation, a run-time fault
if the mutex is not locked for writing on entry. -/
def mutexUnlock : MutexState → MutexRes
  | MutexState.writeLocked => MutexRes.ok MutexState.unlocked
  | _ => MutexRes.fatal

/-- Replacing (or inserting) the value of one key in an association list,
the model of a Go map assignment l.listeners[eType] = callsList. -/
def assocSet {α : Type} : List (String × α) → String → α → List (String × α)
  | [], k, v => [(k, v)]
  | (k1, v1) :: rest, k, v =>
    if k1 = k then (k, v) :: rest else (k1, v1) :: assocSet rest k v

/-- The mutable state of a defaultListener: the listeners map, the mutex
guarding it, and the err field written by scanEvents.  The stop channel
and the events channel are modelled by the step trace fed to
scanEvents. -/
structure ListenerState where
  listeners : List (String × List (Option Callback))
  mutex : MutexState
  err : Option String
deriving DecidableEq

/-- NewDefaultListener: empty listeners map, fresh (unlocked) mutex, nil
err. -/
def NewDefaultListener : ListenerState :=
  { listeners := [], mutex := MutexState.unlocked, err := none }

/-- Status of a registration step: completed, blocked on the mutex, or
crashed on a mutex fault. -/
inductive StepStatus where
  | ok
  | blocked
  | fatalLock
deriving DecidableEq

/-- defaultListener.On: Lock the mutex; look up the existing list for the
event type, and when the type is absent start from
make([]EventListenerCallback, 1), a slice of length one holding the nil
function value; append the new callback; store the list back in the map;
Unlock. -/
def On (l : ListenerState) (eType : String) (cb : Option Callback) :
    StepStatus × ListenerState :=
  match mutexLock l.mutex with
  | MutexRes.ok m1 =>
    let callsList :=
      match l.listeners.lookup eType with
      | some cs => cs
      | none => List.replicate 1 (none : Option Callback)
    let listeners2 := assocSet l.listeners eType (callsList ++ [cb])
    match mutexUnlock m1 with
    | MutexRes.ok m2 =>
      (StepStatus.ok, { l with listeners := listeners2, mutex := m2 })
    | MutexRes.fatal =>
      (StepStatus.fatalLock, { l with listeners := listeners2, mutex := m1 })
    | MutexRes.blocks =>
      (StepStatus.blocked, { l with listeners := listeners2, mutex := m1 })
  | MutexRes.fatal => (StepStatus.fatalLock, l)
  | MutexRes.blocks => (StepStatus.blocked, l)

/-- The callback loop of defaultListener.call: invoke the slots of the
list in order; record each invocation attempt (none is an attempt to call
the nil function value, which panics); a panic aborts the loop and is the
returned payload. -/
def runCallbacks : List (Option Callback) → List (Option Nat) × Option String
  | [] => ([], none)
  | none :: _ => ([none], some nilFuncPanicMsg)
  | some cb :: rest =>
    match cb.panics with
    | some msg => ([some cb.id], some msg)
    | none =>
      match runCallbacks rest with
      | (att, p) => (some cb.id :: att, p)

/-- Result of defaultListener.call: an unrecoverable mutex fault, a block
on the mutex, a panic recovered into a non-nil error (with the invocation
attempts made before it), or a normal return with the attempts made. -/
inductive CallResult where
  | fatalLock
  | blocked
  | errored (attempts : List (Option Nat)) (msg : String)
  | ok (attempts : List (Option Nat))
deriving DecidableEq

/-- defaultListener.call: return nil for a nil event; RLock the mutex;
read the listeners map; then release it with Unlock, not RUnlock, exactly
as the source does; if the read lock release succeeds return nil when no
list is registered, otherwise run the callbacks under the deferred
recover, which converts a panic into a non-nil error. -/
def call (l : ListenerState) (e : Option Event) : CallResult × ListenerState :=
  match e with
  | none => (CallResult.ok [], l)
  | some ev =>
    match mutexRLock l.mutex with
    | MutexRes.ok m1 =>
      let callsList := l.listeners.lookup ev.type
      match mutexUnlock m1 with
      | MutexRes.ok m2 =>
        let l2 := { l with mutex := m2 }
        match callsList with
        | none => (CallResult.ok [], l2)
        | some cbs =>
          match runCallbacks cbs with
          | (att, some msg) => (CallResult.errored att msg, l2)
          | (att, none) => (CallResult.ok att, l2)
      | MutexRes.fatal => (CallResult.fatalLock, { l with mutex := m1 })
      | MutexRes.blocks => (CallResult.blocked, { l with mutex := m1 })
    | MutexRes.fatal => (CallResult.fatalLock, l)
    | MutexRes.blocks => (CallResult.blocked, l)

/-- One observable step of the select loop of scanEvents: a receive of an
event pointer from the events channel, the closure of that channel, a
receive on the stop channel, or the context becoming done with a given
cancellation error. -/
inductive ScanStep where
  | recv (e : Option Event)
  | closed
  | stopSignal
  | ctxDone (msg : String)
deriving DecidableEq

/-- Outcome of running scanEvents against a trace of select steps:
crashed on the mutex fault inside call, stuck blocking inside call,
returned the context error, returned the err field (nil when none), or
still running (the trace ended with the loop blocked in select). -/
inductive ScanOutcome where
  | crashed
  | stuck
  | retCtxErr (msg : String)
  | retErr (err : Option String)
  | running
deriving DecidableEq

/-- defaultListener.scanEvents over a trace of select steps.  A closed
events channel or a stop signal returns the current err field; a done
context returns the context error; a received event is dispatched through
call, whose non-nil error is stored in err and returned at once. -/
def scanEvents (l : ListenerState) : List ScanStep → ScanOutcome
  | [] => ScanOutcome.running
  | ScanStep.ctxDone msg :: _ => ScanOutcome.retCtxErr msg
  | ScanStep.stopSignal :: _ => ScanOutcome.retErr l.err
  | ScanStep.closed :: _ => ScanOutcome.retErr l.err
  | ScanStep.recv e :: rest =>
    match call l e with
    | (CallResult.fatalLock, _) => ScanOutcome.crashed
    | (CallResult.blocked, _) => ScanOutcome.stuck
    | (CallResult.errored _ msg, _) => ScanOutcome.retErr (some msg)
    | (CallResult.ok _, l2) => scanEvents { l2 with err := none } rest

/-- defaultListener.stop sends one value on the stop channel; its receipt
by the select loop is the stopSignal step. -/
def stop : ScanStep := ScanStep.stopSignal

/-!
Proof-side characterization functions and list lemmas.
-/

/-- Boolean membership of a string in a list of strings. -/
def memberOf (k : String) : List String → Bool
  | [] => false
  | x :: xs => if x = k then true else memberOf k xs

/-- The room ids of the joined-room entries whose timeline contains a join
membership event for the user: exactly the rooms the dedup pass
deletes. -/
def flaggedRoomIDs (u : String) : List (String × JoinedRoomData) → List String
  | [] => []
  | p :: rest =>
    if hasOwnJoin u p.2.timelineEvents then p.1 :: flaggedRoomIDs u rest
    else flaggedRoomIDs u rest

/-- Follows the words of the spec (section 4.2 ordering): account-level
events, then presence events, then for each joined room its state events,
then its timeline events, then its ephemeral events, then for each invited
room its state events only, then for each left room its timeline events
only, the room identifier stamped onto every event emitted from a
room-scoped category. -/
def specEmissionOrder (res : RespSync) : List Event :=
  res.accountDataEvents ++ res.presenceEvents
    ++ (res.rooms.join.map (fun p =>
          p.2.stateEvents.map (stampRoomID p.1)
            ++ p.2.timelineEvents.map (stampRoomID p.1)
            ++ p.2.ephemeralEvents.map (stampRoomID p.1))).flatten
    ++ (res.rooms.invite.map (fun p => p.2.stateEvents.map (stampRoomID p.1))).flatten
    ++ (res.rooms.leave.map (fun p => p.2.timelineEvents.map (stampRoomID p.1))).flatten

lemma filterOfTrue {α : Type} (p : α → Bool) :
    ∀ l : List α, (∀ a ∈ l, p a = true) → l.filter p = l
  | [], _ => rfl
  | a :: l, h => by
    have ha := h a (List.mem_cons_self a l)
    simp [List.filter, ha, filterOfTrue p l (fun b hb => h b (List.mem_cons_of_mem a hb))]

lemma filterFilter {α : Type} (p q : α → Bool) :
    ∀ l : List α, (l.filter p).filter q = l.filter (fun a => p a && q a)
  | [] => rfl
  | a :: l => by
    cases hp : p a <;> cases hq : q a <;>
      simp [List.filter, hp, hq, filterFilter p q l]

lemma filterCongrOwn {α : Type} (p q : α → Bool) :
    ∀ l : List α, (∀ a ∈ l, p a = q a) → l.filter p = l.filter q
  | [], _ => rfl
  | a :: l, h => by
    have ha := h a (List.mem_cons_self a l)
    have ih := filterCongrOwn p q l (fun b hb => h b (List.mem_cons_of_mem a hb))
    cases hq : q a <;> simp [List.filter, ha, hq, ih]

lemma lookupIsSomeOfMem {α : Type} (k : String) (v : α) :
    ∀ l : List (String × α), (k, v) ∈ l → (l.lookup k).isSome = true
  | [], h => by cases h
  | (k1, v1) :: rest, h => by
    by_cases hk : k = k1
    · simp [List.lookup, hk]
    · have hkb : (k == k1) = false := by simp [hk]
      rcases List.mem_cons.mp h with h1 | h1
      · cases h1; simp at hk
      · simp [List.lookup, hkb, lookupIsSomeOfMem k v rest h1]

lemma lookupFilterNe {α : Type} (k rid : String) (hk : k ≠ rid) :
    ∀ l : List (String × α),
      (l.filter (fun q => !(q.1 == rid))).lookup k = l.lookup k
  | [] => rfl
  | (k1, v1) :: rest => by
    by_cases h1 : k1 = rid
    · have : ((k1, v1).1 == rid) = true := by simp [h1]
      have hkk1 : (k == k1) = false := by simp [h1 ▸ hk]
      simp [List.filter, this, List.lookup, hkk1, lookupFilterNe k rid hk rest]
    · have : ((k1, v1).1 == rid) = false := by simp [h1]
      by_cases hkk : k = k1
      · simp [List.filter, this, List.lookup, hkk]
      · have hkb : (k == k1) = false := by simp [hkk]
        simp [List.filter, this, List.lookup, hkb, lookupFilterNe k rid hk rest]

lemma scanAndMaybeDeleteEq (u : String) (r : RespSync) (rid : String) :
    ∀ tl : List Event,
      scanAndMaybeDelete u r rid tl =
        if timelineScanJoin u tl && (r.rooms.join.lookup rid).isSome
        then deleteRoom r rid else r
  | [] => by simp [scanAndMaybeDelete, timelineScanJoin]
  | e :: rest => by
    cases hm : (e.type == MemberEventType && e.stateKey == some u)
    · have ht : timelineScanJoin u (e :: rest) = timelineScanJoin u rest := by
        simp [timelineScanJoin, hm]
      rw [ht]
      simp [scanAndMaybeDelete, hm, scanAndMaybeDeleteEq u r rid rest]
    · rcases hx : e.content.lookup "membership" with _ | v
      · have ht : timelineScanJoin u (e :: rest) = timelineScanJoin u rest := by
          simp [timelineScanJoin, hm, hx]
        rw [ht]
        simp [scanAndMaybeDelete, hm, hx, scanAndMaybeDeleteEq u r rid rest]
      · rcases v with s | _
        · cases hs : (s == "join")
          · have ht : timelineScanJoin u (e :: rest) = timelineScanJoin u rest := by
              simp [timelineScanJoin, hm, hx, hs]
            rw [ht]
            simp [scanAndMaybeDelete, hm, hx, hs, scanAndMaybeDeleteEq u r rid rest]
          · have ht : timelineScanJoin u (e :: rest) = true := by
              simp [timelineScanJoin, hm, hx, hs]
            rw [ht]
            cases hsome : (r.rooms.join.lookup rid).isSome
            · simp [scanAndMaybeDelete, hm, hx, hs, hsome,
                scanAndMaybeDeleteEq u r rid rest]
            · simp [scanAndMaybeDelete, hm, hx, hs, hsome]
        · have ht : timelineScanJoin u (e :: rest) = timelineScanJoin u rest := by
            simp [timelineScanJoin, hm, hx]
          rw [ht]
          simp [scanAndMaybeDelete, hm, hx, scanAndMaybeDeleteEq u r rid rest]

lemma memberOfConsBang (k x : String) (xs : List String) :
    (!(k == x) && !(memberOf k xs)) = !(memberOf k (x :: xs)) := by
  by_cases h : x = k
  · simp [memberOf, h]
  · have hkx : (k == x) = false := by
      simp only [beq_eq_false_iff_ne, ne_eq]
      exact fun hc => h hc.symm
    simp [memberOf, h, hkx]

lemma dedupFoldSpec (u : String) (todo : List (String × JoinedRoomData)) :
    ∀ r : RespSync,
      (todo.map Prod.fst).Nodup →
      (∀ p ∈ todo, (r.rooms.join.lookup p.1).isSome = true) →
      (dedupFold u todo r).accountDataEvents = r.accountDataEvents
      ∧ (dedupFold u todo r).presenceEvents = r.presenceEvents
      ∧ (dedupFold u todo r).rooms.leave = r.rooms.leave
      ∧ (dedupFold u todo r).rooms.join
          = r.rooms.join.filter (fun q => !(memberOf q.1 (flaggedRoomIDs u todo)))
      ∧ (dedupFold u todo r).rooms.invite
          = r.rooms.invite.filter (fun q => !(memberOf q.1 (flaggedRoomIDs u todo))) := by
  induction todo with
  | nil =>
    intro r _ _
    refine ⟨rfl, rfl, rfl, ?_, ?_⟩
    · exact (filterOfTrue _ _ (fun a _ => by simp [flaggedRoomIDs, memberOf])).symm
    · exact (filterOfTrue _ _ (fun a _ => by simp [flaggedRoomIDs, memberOf])).symm
  | cons p rest ih =>
    intro r hnd hsub
    have hnd1 : p.1 ∉ rest.map Prod.fst ∧ (rest.map Prod.fst).Nodup := by
      simpa [List.nodup_cons] using hnd
    have hstep : dedupFold u (p :: rest) r
        = dedupFold u rest (scanAndMaybeDelete u r p.1 p.2.timelineEvents.reverse) := rfl
    cases hfl : hasOwnJoin u p.2.timelineEvents
    · have hs1 : scanAndMaybeDelete u r p.1 p.2.timelineEvents.reverse = r := by
        rw [scanAndMaybeDeleteEq]
        have h1 : timelineScanJoin u p.2.timelineEvents.reverse = false := hfl
        simp [h1]
      have hfl2 : flaggedRoomIDs u (p :: rest) = flaggedRoomIDs u rest := by
        simp [flaggedRoomIDs, hfl]
      rw [hstep, hs1, hfl2]
      exact ih r hnd1.2 (fun q hq => hsub q (List.mem_cons_of_mem p hq))
    · have hsome := hsub p (List.mem_cons_self p rest)
      have hs1 : scanAndMaybeDelete u r p.1 p.2.timelineEvents.reverse
          = deleteRoom r p.1 := by
        rw [scanAndMaybeDeleteEq]
        have h1 : timelineScanJoin u p.2.timelineEvents.reverse = true := hfl
        simp [h1, hsome]
      have hne : ∀ q ∈ rest, q.1 ≠ p.1 := by
        intro q hq hqe
        exact hnd1.1 (by rw [← hqe]; exact List.mem_map_of_mem Prod.fst hq)
      have hsub2 : ∀ q ∈ rest,
          (((deleteRoom r p.1).rooms.join.lookup q.1).isSome = true) := by
        intro q hq
        have hlk : (deleteRoom r p.1).rooms.join.lookup q.1
            = r.rooms.join.lookup q.1 :=
          lookupFilterNe q.1 p.1 (hne q hq) r.rooms.join
        rw [hlk]
        exact hsub q (List.mem_cons_of_mem p hq)
      obtain ⟨ha, hp, hl, hj, hi⟩ := ih (deleteRoom r p.1) hnd1.2 hsub2
      have hfl2 : flaggedRoomIDs u (p :: rest) = p.1 :: flaggedRoomIDs u rest := by
        simp [flaggedRoomIDs, hfl]
      rw [hstep, hs1, hfl2]
      refine ⟨ha, hp, hl, ?_, ?_⟩
      · rw [hj]
        have hjd : (deleteRoom r p.1).rooms.join
            = r.rooms.join.filter (fun q => !(q.1 == p.1)) := rfl
        rw [hjd, filterFilter]
        exact filterCongrOwn _ _ _
          (fun a _ => memberOfConsBang a.1 p.1 (flaggedRoomIDs u rest))
      · rw [hi]
        have hid : (deleteRoom r p.1).rooms.invite
            = r.rooms.invite.filter (fun q => !(q.1 == p.1)) := rfl
        rw [hid, filterFilter]
        exact filterCongrOwn _ _ _
          (fun a _ => memberOfConsBang a.1 p.1 (flaggedRoomIDs u rest))

lemma lookupFilterNone {α : Type} (k : String) (fl : List String)
    (hk : memberOf k fl = true) :
    ∀ l : List (String × α),
      (l.filter (fun q => !(memberOf q.1 fl))).lookup k = none
  | [] => rfl
  | (k1, v1) :: rest => by
    cases hm : memberOf k1 fl
    · have hne : (k == k1) = false := by
        simp only [beq_eq_false_iff_ne, ne_eq]
        intro he
        rw [he] at hk
        rw [hk] at hm
        cases hm
      simp [List.filter, hm, List.lookup, hne, lookupFilterNone k fl hk rest]
    · simp [List.filter, hm, lookupFilterNone k fl hk rest]

lemma lookupFilterSome {α : Type} (k : String) (v : α) (pred : String × α → Bool) :
    ∀ l : List (String × α),
      (l.map Prod.fst).Nodup → (k, v) ∈ l → pred (k, v) = true →
      (l.filter pred).lookup k = some v
  | [], _, hmem, _ => by cases hmem
  | (k1, v1) :: rest, hnd, hmem, hpred => by
    have hnd1 : k1 ∉ rest.map Prod.fst ∧ (rest.map Prod.fst).Nodup := by
      simpa [List.nodup_cons] using hnd
    rcases List.mem_cons.mp hmem with h1 | h1
    · cases h1
      simp [List.filter, hpred, List.lookup]
    · have hkne : (k == k1) = false := by
        simp only [beq_eq_false_iff_ne, ne_eq]
        intro he
        exact hnd1.1 (by rw [← he]; exact List.mem_map_of_mem Prod.fst h1)
      cases hp1 : pred (k1, v1)
      · simp [List.filter, hp1, lookupFilterSome k v pred rest hnd1.2 h1 hpred]
      · simp [List.filter, hp1, List.lookup, hkne,
          lookupFilterSome k v pred rest hnd1.2 h1 hpred]

lemma memFlagged (u rid : String) (rd : JoinedRoomData) :
    ∀ j : List (String × JoinedRoomData),
      (rid, rd) ∈ j → hasOwnJoin u rd.timelineEvents = true →
      memberOf rid (flaggedRoomIDs u j) = true
  | [], hmem, _ => by cases hmem
  | p :: rest, hmem, hj => by
    rcases List.mem_cons.mp hmem with h1 | h1
    · cases h1
      simp [flaggedRoomIDs, hj, memberOf]
    · cases hfl : hasOwnJoin u p.2.timelineEvents
      · simp [flaggedRoomIDs, hfl, memFlagged u rid rd rest h1 hj]
      · by_cases hp : p.1 = rid
        · simp [flaggedRoomIDs, hfl, memberOf, hp]
        · simp [flaggedRoomIDs, hfl, memberOf, hp, memFlagged u rid rd rest h1 hj]

lemma flaggedSub (u k : String) :
    ∀ j : List (String × JoinedRoomData),
      memberOf k (flaggedRoomIDs u j) = true → k ∈ j.map Prod.fst
  | [], h => by simp [flaggedRoomIDs, memberOf] at h
  | p :: rest, h => by
    cases hfl : hasOwnJoin u p.2.timelineEvents
    · simp only [flaggedRoomIDs, hfl, if_neg (by simp : ¬(false = true))] at h
      exact List.mem_cons_of_mem _ (flaggedSub u k rest (by simpa using h))
    · simp only [flaggedRoomIDs, hfl, if_pos rfl] at h
      by_cases hp : p.1 = k
      · rw [List.map_cons, hp]
        exact List.mem_cons_self _ _
      · rw [List.map_cons]
        refine List.mem_cons_of_mem _ (flaggedSub u k rest ?_)
        simpa [memberOf, hp] using h

lemma notMemFlagged (u rid : String) (rd : JoinedRoomData) :
    ∀ j : List (String × JoinedRoomData),
      (j.map Prod.fst).Nodup → (rid, rd) ∈ j →
      hasOwnJoin u rd.timelineEvents = false →
      memberOf rid (flaggedRoomIDs u j) = false
  | [], _, hmem, _ => by cases hmem
  | p :: rest, hnd, hmem, hj => by
    have hnd1 : p.1 ∉ rest.map Prod.fst ∧ (rest.map Prod.fst).Nodup := by
      simpa [List.nodup_cons] using hnd
    rcases List.mem_cons.mp hmem with h1 | h1
    · cases h1
      cases hm : memberOf rid (flaggedRoomIDs u rest)
      · simp [flaggedRoomIDs, hj, hm]
      · exact absurd (flaggedSub u rid rest hm) (by simpa using hnd1.1)
    · cases hfl : hasOwnJoin u p.2.timelineEvents
      · simp [flaggedRoomIDs, hfl, notMemFlagged u rid rd rest hnd1.2 h1 hj]
      · have hp : ¬(p.1 = rid) := by
          intro he
          exact hnd1.1 (by rw [he]; exact List.mem_map_of_mem Prod.fst h1)
        simp [flaggedRoomIDs, hfl, memberOf, hp,
          notMemFlagged u rid rd rest hnd1.2 h1 hj]

lemma timelineScanJoinIff (u : String) :
    ∀ l : List Event,
      timelineScanJoin u l = true ↔
        ∃ e, e ∈ l ∧ e.type = MemberEventType ∧ e.stateKey = some u
          ∧ e.content.lookup "membership" = some (JsonValue.str "join")
  | [] => by simp [timelineScanJoin]
  | e :: rest => by
    cases hm : (e.type == MemberEventType && e.stateKey == some u)
    · have hstep : timelineScanJoin u (e :: rest) = timelineScanJoin u rest := by
        simp [timelineScanJoin, hm]
      rw [hstep, timelineScanJoinIff u rest]
      constructor
      · rintro ⟨e1, h1, h2, h3, h4⟩
        exact ⟨e1, List.mem_cons_of_mem e h1, h2, h3, h4⟩
      · rintro ⟨e1, h1, h2, h3, h4⟩
        rcases List.mem_cons.mp h1 with he | he
        · exfalso
          have hc : (e.type == MemberEventType && e.stateKey == some u) = true := by
            rw [he] at h2 h3
            simp [h2, h3]
          rw [hm] at hc
          cases hc
        · exact ⟨e1, he, h2, h3, h4⟩
    · have hm2 : e.type = MemberEventType ∧ e.stateKey = some u := by
        simpa [Bool.and_eq_true, beq_iff_eq] using hm
      rcases hx : e.content.lookup "membership" with _ | v
      · have hstep : timelineScanJoin u (e :: rest) = timelineScanJoin u rest := by
          simp [timelineScanJoin, hm, hx]
        rw [hstep, timelineScanJoinIff u rest]
        constructor
        · rintro ⟨e1, h1, h2, h3, h4⟩
          exact ⟨e1, List.mem_cons_of_mem e h1, h2, h3, h4⟩
        · rintro ⟨e1, h1, h2, h3, h4⟩
          rcases List.mem_cons.mp h1 with he | he
          · exfalso
            rw [he] at h4
            rw [hx] at h4
            cases h4
          · exact ⟨e1, he, h2, h3, h4⟩
      · rcases v with s | _
        · cases hs : (s == "join")
          · have hstep : timelineScanJoin u (e :: rest) = timelineScanJoin u rest := by
              simp [timelineScanJoin, hm, hx, hs]
            rw [hstep, timelineScanJoinIff u rest]
            have hsne : ¬(s = "join") := by simpa using hs
            constructor
            · rintro ⟨e1, h1, h2, h3, h4⟩
              exact ⟨e1, List.mem_cons_of_mem e h1, h2, h3, h4⟩
            · rintro ⟨e1, h1, h2, h3, h4⟩
              rcases List.mem_cons.mp h1 with he | he
              · exfalso
                rw [he] at h4
                rw [hx] at h4
                exact hsne (by injection h4 with h5; injection h5)
              · exact ⟨e1, he, h2, h3, h4⟩
          · have hstep : timelineScanJoin u (e :: rest) = true := by
              simp [timelineScanJoin, hm, hx, hs]
            rw [hstep]
            have hsj : s = "join" := by simpa using hs
            constructor
            · intro _
              exact ⟨e, List.mem_cons_self e rest, hm2.1, hm2.2, by rw [hx, hsj]⟩
            · intro _
              rfl
        · have hstep : timelineScanJoin u (e :: rest) = timelineScanJoin u rest := by
            simp [timelineScanJoin, hm, hx]
          rw [hstep, timelineScanJoinIff u rest]
          constructor
          · rintro ⟨e1, h1, h2, h3, h4⟩
            exact ⟨e1, List.mem_cons_of_mem e h1, h2, h3, h4⟩
          · rintro ⟨e1, h1, h2, h3, h4⟩
            rcases List.mem_cons.mp h1 with he | he
            · exfalso
              rw [he] at h4
              rw [hx] at h4
              cases h4
            · exact ⟨e1, he, h2, h3, h4⟩

lemma hasOwnJoinIff (u : String) (tl : List Event) :
    hasOwnJoin u tl = true ↔
      ∃ e, e ∈ tl ∧ e.type = MemberEventType ∧ e.stateKey = some u
        ∧ e.content.lookup "membership" = some (JsonValue.str "join") := by
  rw [hasOwnJoin, timelineScanJoinIff]
  constructor
  · rintro ⟨e1, h1, h2⟩
    exact ⟨e1, List.mem_reverse.mp h1, h2⟩
  · rintro ⟨e1, h1, h2⟩
    exact ⟨e1, List.mem_reverse.mpr h1, h2⟩

lemma memEmitJoined {e : Event} :
    ∀ j : List (String × JoinedRoomData),
      e ∈ emitJoined j →
      ∃ p, p ∈ j ∧ e.roomID = p.1
        ∧ ∃ src, src ∈ p.2.stateEvents ++ p.2.timelineEvents ++ p.2.ephemeralEvents
            ∧ e = stampRoomID p.1 src
  | [], h => by simp [emitJoined] at h
  | (rid, rd) :: rest, h => by
    simp only [emitJoined, List.mem_append, or_assoc] at h
    rcases h with h | h | h | h
    · rcases List.mem_map.mp h with ⟨src, hsrc, hst⟩
      exact ⟨(rid, rd), List.mem_cons_self _ _, by rw [← hst]; rfl,
        src, by simp [List.mem_append, hsrc], hst.symm⟩
    · rcases List.mem_map.mp h with ⟨src, hsrc, hst⟩
      exact ⟨(rid, rd), List.mem_cons_self _ _, by rw [← hst]; rfl,
        src, by simp [List.mem_append, hsrc], hst.symm⟩
    · rcases List.mem_map.mp h with ⟨src, hsrc, hst⟩
      exact ⟨(rid, rd), List.mem_cons_self _ _, by rw [← hst]; rfl,
        src, by simp [List.mem_append, hsrc], hst.symm⟩
    · rcases memEmitJoined rest h with ⟨p, hp, h2⟩
      exact ⟨p, List.mem_cons_of_mem _ hp, h2⟩

lemma memEmitInvited {e : Event} :
    ∀ j : List (String × InvitedRoomData),
      e ∈ emitInvited j →
      ∃ p, p ∈ j ∧ e.roomID = p.1
        ∧ ∃ src, src ∈ p.2.stateEvents ∧ e = stampRoomID p.1 src
  | [], h => by simp [emitInvited] at h
  | (rid, rd) :: rest, h => by
    simp only [emitInvited, List.mem_append] at h
    rcases h with h | h
    · rcases List.mem_map.mp h with ⟨src, hsrc, hst⟩
      exact ⟨(rid, rd), List.mem_cons_self _ _, by rw [← hst]; rfl, src, hsrc, hst.symm⟩
    · rcases memEmitInvited rest h with ⟨p, hp, h2⟩
      exact ⟨p, List.mem_cons_of_mem _ hp, h2⟩

lemma memEmitLeft {e : Event} :
    ∀ j : List (String × LeftRoomData),
      e ∈ emitLeft j →
      ∃ p, p ∈ j ∧ e.roomID = p.1
        ∧ ∃ src, src ∈ p.2.timelineEvents ∧ e = stampRoomID p.1 src
  | [], h => by simp [emitLeft] at h
  | (rid, rd) :: rest, h => by
    simp only [emitLeft, List.mem_append] at h
    rcases h with h | h
    · rcases List.mem_map.mp h with ⟨src, hsrc, hst⟩
      exact ⟨(rid, rd), List.mem_cons_self _ _, by rw [← hst]; rfl, src, hsrc, hst.symm⟩
    · rcases memEmitLeft rest h with ⟨p, hp, h2⟩
      exact ⟨p, List.mem_cons_of_mem _ hp, h2⟩

lemma emitJoinedMemOf (rid : String) (rd : JoinedRoomData) (ev : Event)
    (hev : ev ∈ rd.timelineEvents) :
    ∀ j : List (String × JoinedRoomData),
      (rid, rd) ∈ j → stampRoomID rid ev ∈ emitJoined j
  | [], h => by cases h
  | p :: rest, h => by
    rcases List.mem_cons.mp h with h1 | h1
    · cases h1
      simp only [emitJoined, List.mem_append, or_assoc]
      exact Or.inr (Or.inl (List.mem_map_of_mem _ hev))
    · rcases p with ⟨k, d⟩
      simp only [emitJoined, List.mem_append, or_assoc]
      exact Or.inr (Or.inr (Or.inr (emitJoinedMemOf rid rd ev hev rest h1)))

lemma emitJoinedFlatten :
    ∀ j : List (String × JoinedRoomData),
      emitJoined j = (j.map (fun p =>
        p.2.stateEvents.map (stampRoomID p.1)
          ++ p.2.timelineEvents.map (stampRoomID p.1)
          ++ p.2.ephemeralEvents.map (stampRoomID p.1))).flatten
  | [] => rfl
  | (rid, rd) :: rest => by
    simp [emitJoined, emitJoinedFlatten rest, List.append_assoc]

lemma emitInvitedFlatten :
    ∀ j : List (String × InvitedRoomData),
      emitInvited j = (j.map (fun p => p.2.stateEvents.map (stampRoomID p.1))).flatten
  | [] => rfl
  | (rid, rd) :: rest => by
    simp [emitInvited, emitInvitedFlatten rest]

lemma emitLeftFlatten :
    ∀ j : List (String × LeftRoomData),
      emitLeft j = (j.map (fun p => p.2.timelineEvents.map (stampRoomID p.1))).flatten
  | [] => rfl
  | (rid, rd) :: rest => by
    simp [emitLeft, emitLeftFlatten rest]

/-!
Claim theorems for the sync side.
-/

/-- C1: for every poll response and every response content, when the since
value used for the request is empty, ProcessResponse emits zero events on
the events channel, leaves the response unmodified and returns a nil
error. -/
theorem initialSyncSuppression (s : DefaultSyncer) (res : RespSync) :
    ProcessResponse s res "" = ([], res, none) := by
  simp [ProcessResponse, shouldProcessResponse]

/-- C8: for every input pair of optional response and error, the default
failure policy OnFailedSync returns a fixed 10 second retry delay and a
nil fatal error, and therefore a run of any number of consecutive
transport failures under the default policy sleeps the fixed delay once
per failure and never terminates fatally. -/
theorem defaultBackoffNeverFatal (s : DefaultSyncer) (res : Option RespSync)
    (err : String) (fails : List (Option RespSync × String)) :
    OnFailedSync s res err = (10 * timeSecond, none)
    ∧ consecutiveFailures s fails
        = (fails.map (fun _ => 10 * timeSecond), none) := by
  refine ⟨rfl, ?_⟩
  induction fails with
  | nil => rfl
  | cons f rest ih =>
    rcases f with ⟨r1, e1⟩
    simp [consecutiveFailures, OnFailedSync, ih]

/-- C10: for every poll response with non-empty since,
shouldProcessResponse returns true and its only mutation of the response
is the deletion of whole room entries from the joined and invited
categories: account data events, presence events and left rooms are
exactly as before, the joined map keeps exactly the entries without an
own join event, data untouched, and the invited map loses exactly the
flagged room ids; moreover, the deletion trigger is exactly the existence
of a member event for the user whose membership content entry is the
string join, so an event whose membership entry is absent or not a string
never triggers removal and causes no error. -/
theorem frameNonEmptySince (s : DefaultSyncer) (resp : RespSync) (since : String)
    (hsince : since ≠ "")
    (hnd : (resp.rooms.join.map Prod.fst).Nodup) :
    (shouldProcessResponse s resp since).1 = true
    ∧ (shouldProcessResponse s resp since).2.accountDataEvents = resp.accountDataEvents
    ∧ (shouldProcessResponse s resp since).2.presenceEvents = resp.presenceEvents
    ∧ (shouldProcessResponse s resp since).2.rooms.leave = resp.rooms.leave
    ∧ (shouldProcessResponse s resp since).2.rooms.join
        = resp.rooms.join.filter
            (fun q => !(memberOf q.1 (flaggedRoomIDs s.userID resp.rooms.join)))
    ∧ (shouldProcessResponse s resp since).2.rooms.invite
        = resp.rooms.invite.filter
            (fun q => !(memberOf q.1 (flaggedRoomIDs s.userID resp.rooms.join)))
    ∧ (∀ tl : List Event, hasOwnJoin s.userID tl = true ↔
          ∃ e, e ∈ tl ∧ e.type = MemberEventType ∧ e.stateKey = some s.userID
            ∧ e.content.lookup "membership" = some (JsonValue.str "join")) := by
  have hred : shouldProcessResponse s resp since
      = (true, dedupFold s.userID resp.rooms.join resp) := by
    simp [shouldProcessResponse, hsince]
  have hsub : ∀ p ∈ resp.rooms.join,
      (resp.rooms.join.lookup p.1).isSome = true := by
    intro p hp
    rcases p with ⟨k, v⟩
    exact lookupIsSomeOfMem k v resp.rooms.join hp
  obtain ⟨ha, hp2, hl, hj, hi⟩ :=
    dedupFoldSpec s.userID resp.rooms.join resp hnd hsub
  rw [hred]
  exact ⟨rfl, ha, hp2, hl, hj, hi, fun tl => hasOwnJoinIff s.userID tl⟩

/-- C2: for every poll response with non-empty since, a joined room whose
timeline, scanned most-recent-first, contains a membership event whose
state-key is the local user id and whose membership content is the string
join has its entry deleted from both the joined and the invited
categories before emission, so none of its state, timeline or ephemeral
events is emitted in this cycle; the emitted sequence is exactly the
emission of the pruned response. -/
theorem joinFloodRoomDeleted (s : DefaultSyncer) (res : RespSync)
    (since rid : String) (rd : JoinedRoomData)
    (hsince : since ≠ "")
    (hnd : (res.rooms.join.map Prod.fst).Nodup)
    (hmem : (rid, rd) ∈ res.rooms.join)
    (hjoin : hasOwnJoin s.userID rd.timelineEvents = true) :
    (ProcessResponse s res since).2.1.rooms.join.lookup rid = none
    ∧ (ProcessResponse s res since).2.1.rooms.invite.lookup rid = none
    ∧ (∀ e ∈ emitJoined (ProcessResponse s res since).2.1.rooms.join,
        e.roomID ≠ rid)
    ∧ (∀ e ∈ emitInvited (ProcessResponse s res since).2.1.rooms.invite,
        e.roomID ≠ rid)
    ∧ (ProcessResponse s res since).1
        = emittedEvents (ProcessResponse s res since).2.1 := by
  have hred : ProcessResponse s res since
      = (emittedEvents (dedupFold s.userID res.rooms.join res),
         dedupFold s.userID res.rooms.join res, none) := by
    simp [ProcessResponse, shouldProcessResponse, hsince]
  have hsub : ∀ p ∈ res.rooms.join,
      (res.rooms.join.lookup p.1).isSome = true := by
    intro p hp
    rcases p with ⟨k, v⟩
    exact lookupIsSomeOfMem k v res.rooms.join hp
  obtain ⟨ha, hp2, hl, hj, hi⟩ :=
    dedupFoldSpec s.userID res.rooms.join res hnd hsub
  have hflag : memberOf rid (flaggedRoomIDs s.userID res.rooms.join) = true :=
    memFlagged s.userID rid rd res.rooms.join hmem hjoin
  rw [hred]
  refine ⟨?_, ?_, ?_, ?_, rfl⟩
  · rw [hj]
    exact lookupFilterNone rid _ hflag res.rooms.join
  · rw [hi]
    exact lookupFilterNone rid _ hflag res.rooms.invite
  · intro e he hrid
    rw [hj] at he
    rcases memEmitJoined _ he with ⟨p, hp, hrm, _⟩
    have hkeep := (List.mem_filter.mp hp).2
    rw [hrid] at hrm
    rw [← hrm] at hkeep
    rw [hflag] at hkeep
    cases hkeep
  · intro e he hrid
    rw [hi] at he
    rcases memEmitInvited _ he with ⟨p, hp, hrm, _⟩
    have hkeep := (List.mem_filter.mp hp).2
    rw [hrid] at hrm
    rw [← hrm] at hkeep
    rw [hflag] at hkeep
    cases hkeep

def cThreeSyncer : DefaultSyncer := { userID := "@bot:hs" }

def cThreeJoinOld : Event :=
  { type := "m.room.member", roomID := "", stateKey := some "@bot:hs",
    content := [("membership", JsonValue.str "join")],
    sender := "@bot:hs", timestamp := 1 }

def cThreeLeaveNew : Event :=
  { type := "m.room.member", roomID := "", stateKey := some "@bot:hs",
    content := [("membership", JsonValue.str "leave")],
    sender := "@bot:hs", timestamp := 2 }

def cThreeResp : RespSync :=
  { accountDataEvents := [], presenceEvents := [],
    rooms :=
      { join := [("!r:hs",
          { stateEvents := [], timelineEvents := [cThreeJoinOld, cThreeLeaveNew],
            ephemeralEvents := [] })],
        invite := [], leave := [] } }

/-- C3 counterexample: in this response the joined room timeline read
most-recent-first is a leave membership event of the local account
followed by the older join, so a membership event other than join comes
first; the claim says such a room is emitted normally, but the code
deletes the room entry and emits nothing at all. -/
theorem joinFloodRecentLeaveCounterexample :
    (ProcessResponse cThreeSyncer cThreeResp "tok").1 = []
    ∧ (ProcessResponse cThreeSyncer cThreeResp "tok").2.1.rooms.join.lookup "!r:hs"
        = none := by
  exact ⟨rfl, rfl⟩

/-- C3 amended: for every poll response with non-empty since, a joined
room whose timeline contains anywhere a membership event of the local
account whose membership content is the string join has its entries fully
absent from the emitted sequence, regardless of any more recent
membership event of the local account in the same timeline; a joined room
without such an event is emitted normally: its entry survives with its
data unchanged and each of its timeline events appears, stamped with the
room id, in the emitted sequence. -/
theorem joinFloodDedupAmended (s : DefaultSyncer) (res : RespSync)
    (since rid : String) (rd : JoinedRoomData)
    (hsince : since ≠ "")
    (hnd : (res.rooms.join.map Prod.fst).Nodup)
    (hmem : (rid, rd) ∈ res.rooms.join) :
    (hasOwnJoin s.userID rd.timelineEvents = true →
        (ProcessResponse s res since).2.1.rooms.join.lookup rid = none
        ∧ (∀ e ∈ emitJoined (ProcessResponse s res since).2.1.rooms.join,
            e.roomID ≠ rid))
    ∧ (hasOwnJoin s.userID rd.timelineEvents = false →
        (ProcessResponse s res since).2.1.rooms.join.lookup rid = some rd
        ∧ (∀ ev ∈ rd.timelineEvents,
            stampRoomID rid ev ∈ (ProcessResponse s res since).1)) := by
  have hred : ProcessResponse s res since
      = (emittedEvents (dedupFold s.userID res.rooms.join res),
         dedupFold s.userID res.rooms.join res, none) := by
    simp [ProcessResponse, shouldProcessResponse, hsince]
  have hsub : ∀ p ∈ res.rooms.join,
      (res.rooms.join.lookup p.1).isSome = true := by
    intro p hp
    rcases p with ⟨k, v⟩
    exact lookupIsSomeOfMem k v res.rooms.join hp
  obtain ⟨ha, hp2, hl, hj, hi⟩ :=
    dedupFoldSpec s.userID res.rooms.join res hnd hsub
  rw [hred]
  constructor
  · intro hjoin
    have hflag : memberOf rid (flaggedRoomIDs s.userID res.rooms.join) = true :=
      memFlagged s.userID rid rd res.rooms.join hmem hjoin
    constructor
    · rw [hj]
      exact lookupFilterNone rid _ hflag res.rooms.join
    · intro e he hrid
      rw [hj] at he
      rcases memEmitJoined _ he with ⟨p, hp, hrm, _⟩
      have hkeep := (List.mem_filter.mp hp).2
      rw [hrid] at hrm
      rw [← hrm] at hkeep
      rw [hflag] at hkeep
      cases hkeep
  · intro hnojoin
    have hflag0 : memberOf rid (flaggedRoomIDs s.userID res.rooms.join) = false :=
      notMemFlagged s.userID rid rd res.rooms.join hnd hmem hnojoin
    have hkept : (rid, rd) ∈ (dedupFold s.userID res.rooms.join res).rooms.join := by
      rw [hj]
      exact List.mem_filter.mpr ⟨hmem, by simp [hflag0]⟩
    constructor
    · rw [hj]
      exact lookupFilterSome rid rd _ res.rooms.join hnd hmem (by simp [hflag0])
    · intro ev hev
      have hstamp := emitJoinedMemOf rid rd ev hev _ hkept
      simp only [emittedEvents, List.mem_append, or_assoc]
      exact Or.inr (Or.inr (Or.inl hstamp))

/-- C4: for every poll response with non-empty since, which survives
suppression, the emitted sequence follows exactly the order of the spec:
account data events, then presence events, then per joined room its state
events, its timeline events, its ephemeral events, then per invited room
its state events only, then per left room its timeline events only; and
every event emitted from a room-scoped category is the stamp of a source
event of the room entry it came from, so it carries that room id in its
RoomID field. -/
theorem emissionOrderSpec (s : DefaultSyncer) (res : RespSync) (since : String)
    (hsince : since ≠ "") :
    (ProcessResponse s res since).1
        = specEmissionOrder (ProcessResponse s res since).2.1
    ∧ (∀ e ∈ emitJoined (ProcessResponse s res since).2.1.rooms.join,
        ∃ p, p ∈ (ProcessResponse s res since).2.1.rooms.join ∧ e.roomID = p.1
          ∧ ∃ src, src ∈ p.2.stateEvents ++ p.2.timelineEvents ++ p.2.ephemeralEvents
              ∧ e = stampRoomID p.1 src)
    ∧ (∀ e ∈ emitInvited (ProcessResponse s res since).2.1.rooms.invite,
        ∃ p, p ∈ (ProcessResponse s res since).2.1.rooms.invite ∧ e.roomID = p.1
          ∧ ∃ src, src ∈ p.2.stateEvents ∧ e = stampRoomID p.1 src)
    ∧ (∀ e ∈ emitLeft (ProcessResponse s res since).2.1.rooms.leave,
        ∃ p, p ∈ (ProcessResponse s res since).2.1.rooms.leave ∧ e.roomID = p.1
          ∧ ∃ src, src ∈ p.2.timelineEvents ∧ e = stampRoomID p.1 src) := by
  have hred : ProcessResponse s res since
      = (emittedEvents (dedupFold s.userID res.rooms.join res),
         dedupFold s.userID res.rooms.join res, none) := by
    simp [ProcessResponse, shouldProcessResponse, hsince]
  rw [hred]
  refine ⟨?_, ?_, ?_, ?_⟩
  · simp only [emittedEvents, specEmissionOrder, emitJoinedFlatten,
      emitInvitedFlatten, emitLeftFlatten]
  · exact fun e he => memEmitJoined _ he
  · exact fun e he => memEmitInvited _ he
  · exact fun e he => memEmitLeft _ he

/-!
Claim theorems for the listener side.
-/

def cFiveListener : ListenerState :=
  (On NewDefaultListener "m.room.message" (some { id := 1, panics := none })).2

def cFiveEvent : Event :=
  { type := "m.room.message", roomID := "", stateKey := none, content := [],
    sender := "@u:hs", timestamp := 3 }

/-- C5: evaluation at the failing input.  After one registration the
stored list for the event type holds the nil function value in front of
the registered callback, because On starts an absent entry from a slice
of length one; and a dispatch of an event of that type does not invoke
the registered callback at all: call hits the unrecoverable run-time
fault of releasing a read-locked RWMutex with Unlock before any callback
invocation is reached. -/
theorem onCallNilSlotAndFault :
    cFiveListener.listeners.lookup "m.room.message"
        = some [none, some { id := 1, panics := none }]
    ∧ (call cFiveListener (some cFiveEvent)).1 = CallResult.fatalLock := by
  exact ⟨rfl, rfl⟩

def cSixListener : ListenerState :=
  (On NewDefaultListener "m.queue.event" (some { id := 7, panics := some "boom" })).2

def cSixEvent : Event :=
  { type := "m.queue.event", roomID := "", stateKey := none, content := [],
    sender := "", timestamp := 0 }

/-- C6: evaluation at the failing input.  With a panicking callback
registered for the type, a dispatch does not return a recovered non-nil
error: call crashes with the unrecoverable mutex fault before the
deferred recover or any callback invocation is reached; and even with the
lock fixed, the callback loop for the stored list would attempt the nil
slot first and panic there, so the registered callback is still not the
invocation that runs. -/
theorem panickingCallbackNotIsolated :
    (call cSixListener (some cSixEvent)).1 = CallResult.fatalLock
    ∧ runCallbacks [none, some { id := 7, panics := some "boom" }]
        = ([none], some nilFuncPanicMsg) := by
  exact ⟨rfl, rfl⟩

def cNineListener : ListenerState :=
  (On NewDefaultListener "m.presence" (some { id := 3, panics := none })).2

def cNineEvent : Event :=
  { type := "m.presence", roomID := "", stateKey := none, content := [],
    sender := "", timestamp := 0 }

/-- C9: evaluation at the failing input.  Registration alone pairs Lock
with Unlock correctly and leaves the mutex unlocked, but a single
dispatch faults the lock: call acquires the read lock and then releases
it with Unlock, and Unlock of a read-locked RWMutex is an unrecoverable
run-time fault, so dispatch never releases the read lock it acquired and
the program crashes with no interleaving at all. -/
theorem dispatchReadLockFault :
    cNineListener.mutex = MutexState.unlocked
    ∧ mutexUnlock (MutexState.readLocked 1) = MutexRes.fatal
    ∧ (call cNineListener (some cNineEvent)).1 = CallResult.fatalLock := by
  exact ⟨rfl, rfl, rfl⟩

/-- C7: scanEvents returns at once on each terminating select step,
independently of any further steps in the trace: a done context yields
the context cancellation error and never a listener-fault return; a stop
signal (the receipt of the value sent by stop) or a closed events channel
yields the recorded err field, which is nil when no listener error was
recorded. -/
theorem scanEventsTermination (l : ListenerState) (rest : List ScanStep)
    (msg : String) :
    scanEvents l (ScanStep.ctxDone msg :: rest) = ScanOutcome.retCtxErr msg
    ∧ (∀ e : Option String,
        scanEvents l (ScanStep.ctxDone msg :: rest) ≠ ScanOutcome.retErr e)
    ∧ scanEvents l (stop :: rest) = ScanOutcome.retErr l.err
    ∧ scanEvents l (ScanStep.closed :: rest) = ScanOutcome.retErr l.err := by
  refine ⟨rfl, ?_, rfl, rfl⟩
  intro e h
  simp [scanEvents] at h

/-!
Witnesses: concrete instantiations of the claim theorems above.
-/

def wTwoSyncer : DefaultSyncer := { userID := "@w2:hs" }

def wTwoJoinEv : Event :=
  { type := "m.room.member", roomID := "", stateKey := some "@w2:hs",
    content := [("membership", JsonValue.str "join")],
    sender := "@w2:hs", timestamp := 5 }

def wTwoRoom : JoinedRoomData :=
  { stateEvents := [], timelineEvents := [wTwoJoinEv], ephemeralEvents := [] }

def wTwoResp : RespSync :=
  { accountDataEvents := [], presenceEvents := [],
    rooms := { join := [("!w2:hs", wTwoRoom)],
               invite := [("!w2:hs", { stateEvents := [wTwoJoinEv] })],
               leave := [] } }

/-- Witness for the C2 theorem at a concrete response. -/
theorem joinFloodRoomDeletedWitness :
    ("b2" ≠ "" ∧ (wTwoResp.rooms.join.map Prod.fst).Nodup
      ∧ ("!w2:hs", wTwoRoom) ∈ wTwoResp.rooms.join
      ∧ hasOwnJoin wTwoSyncer.userID wTwoRoom.timelineEvents = true)
    ∧ ((ProcessResponse wTwoSyncer wTwoResp "b2").2.1.rooms.join.lookup "!w2:hs" = none
      ∧ (ProcessResponse wTwoSyncer wTwoResp "b2").2.1.rooms.invite.lookup "!w2:hs" = none
      ∧ (∀ e ∈ emitJoined (ProcessResponse wTwoSyncer wTwoResp "b2").2.1.rooms.join,
          e.roomID ≠ "!w2:hs")
      ∧ (∀ e ∈ emitInvited (ProcessResponse wTwoSyncer wTwoResp "b2").2.1.rooms.invite,
          e.roomID ≠ "!w2:hs")
      ∧ (ProcessResponse wTwoSyncer wTwoResp "b2").1
          = emittedEvents (ProcessResponse wTwoSyncer wTwoResp "b2").2.1) :=
  ⟨⟨by decide, by decide, by decide, by decide⟩,
   joinFloodRoomDeleted wTwoSyncer wTwoResp "b2" "!w2:hs" wTwoRoom
     (by decide) (by decide) (by decide) (by decide)⟩

def wThreeSyncer : DefaultSyncer := { userID := "@w3:hs" }

def wThreeMsg : Event :=
  { type := "m.room.message", roomID := "", stateKey := none, content := [],
    sender := "@w3:hs", timestamp := 9 }

def wThreeRoom : JoinedRoomData :=
  { stateEvents := [], timelineEvents := [wThreeMsg], ephemeralEvents := [] }

def wThreeResp : RespSync :=
  { accountDataEvents := [], presenceEvents := [],
    rooms := { join := [("!w3:hs", wThreeRoom)], invite := [], leave := [] } }

/-- Witness for the amended C3 theorem at a concrete response. -/
theorem joinFloodDedupAmendedWitness :
    ("b3" ≠ "" ∧ (wThreeResp.rooms.join.map Prod.fst).Nodup
      ∧ ("!w3:hs", wThreeRoom) ∈ wThreeResp.rooms.join)
    ∧ ((hasOwnJoin wThreeSyncer.userID wThreeRoom.timelineEvents = true →
          (ProcessResponse wThreeSyncer wThreeResp "b3").2.1.rooms.join.lookup "!w3:hs"
              = none
          ∧ (∀ e ∈ emitJoined (ProcessResponse wThreeSyncer wThreeResp "b3").2.1.rooms.join,
              e.roomID ≠ "!w3:hs"))
      ∧ (hasOwnJoin wThreeSyncer.userID wThreeRoom.timelineEvents = false →
          (ProcessResponse wThreeSyncer wThreeResp "b3").2.1.rooms.join.lookup "!w3:hs"
              = some wThreeRoom
          ∧ (∀ ev ∈ wThreeRoom.timelineEvents,
              stampRoomID "!w3:hs" ev
                ∈ (ProcessResponse wThreeSyncer wThreeResp "b3").1))) :=
  ⟨⟨by decide, by decide, by decide⟩,
   joinFloodDedupAmended wThreeSyncer wThreeResp "b3" "!w3:hs" wThreeRoom
     (by decide) (by decide) (by decide)⟩

def wFourSyncer : DefaultSyncer := { userID := "@w4:hs" }

def wFourAcct : Event :=
  { type := "m.tag", roomID := "", stateKey := none, content := [],
    sender := "@w4:hs", timestamp := 0 }

def wFourMsg : Event :=
  { type := "m.room.message", roomID := "", stateKey := none, content := [],
    sender := "@w4:hs", timestamp := 4 }

def wFourResp : RespSync :=
  { accountDataEvents := [wFourAcct], presenceEvents := [],
    rooms :=
      { join := [("!w4:hs",
          { stateEvents := [], timelineEvents := [wFourMsg], ephemeralEvents := [] })],
        invite := [], leave := [] } }

/-- Witness for the C4 theorem at a concrete response. -/
theorem emissionOrderSpecWitness :
    ("b4" ≠ "")
    ∧ ((ProcessResponse wFourSyncer wFourResp "b4").1
          = specEmissionOrder (ProcessResponse wFourSyncer wFourResp "b4").2.1
      ∧ (∀ e ∈ emitJoined (ProcessResponse wFourSyncer wFourResp "b4").2.1.rooms.join,
          ∃ p, p ∈ (ProcessResponse wFourSyncer wFourResp "b4").2.1.rooms.join
            ∧ e.roomID = p.1
            ∧ ∃ src, src ∈ p.2.stateEvents ++ p.2.timelineEvents ++ p.2.ephemeralEvents
                ∧ e = stampRoomID p.1 src)
      ∧ (∀ e ∈ emitInvited (ProcessResponse wFourSyncer wFourResp "b4").2.1.rooms.invite,
          ∃ p, p ∈ (ProcessResponse wFourSyncer wFourResp "b4").2.1.rooms.invite
            ∧ e.roomID = p.1
            ∧ ∃ src, src ∈ p.2.stateEvents ∧ e = stampRoomID p.1 src)
      ∧ (∀ e ∈ emitLeft (ProcessResponse wFourSyncer wFourResp "b4").2.1.rooms.leave,
          ∃ p, p ∈ (ProcessResponse wFourSyncer wFourResp "b4").2.1.rooms.leave
            ∧ e.roomID = p.1
            ∧ ∃ src, src ∈ p.2.timelineEvents ∧ e = stampRoomID p.1 src)) :=
  ⟨by decide, emissionOrderSpec wFourSyncer wFourResp "b4" (by decide)⟩

def wTenSyncer : DefaultSyncer := { userID := "@w10:hs" }

def wTenNonStr : Event :=
  { type := "m.room.member", roomID := "", stateKey := some "@w10:hs",
    content := [("membership", JsonValue.other)],
    sender := "@w10:hs", timestamp := 2 }

def wTenRoom : JoinedRoomData :=
  { stateEvents := [], timelineEvents := [wTenNonStr], ephemeralEvents := [] }

def wTenResp : RespSync :=
  { accountDataEvents := [wFourAcct], presenceEvents := [],
    rooms := { join := [("!w10:hs", wTenRoom)], invite := [], leave := [] } }

/-- Witness for the C10 theorem at a concrete response whose joined room
carries a member event with a non-string membership content entry. -/
theorem frameNonEmptySinceWitness :
    ("b10" ≠ "" ∧ (wTenResp.rooms.join.map Prod.fst).Nodup)
    ∧ ((shouldProcessResponse wTenSyncer wTenResp "b10").1 = true
      ∧ (shouldProcessResponse wTenSyncer wTenResp "b10").2.accountDataEvents
          = wTenResp.accountDataEvents
      ∧ (shouldProcessResponse wTenSyncer wTenResp "b10").2.presenceEvents
          = wTenResp.presenceEvents
      ∧ (shouldProcessResponse wTenSyncer wTenResp "b10").2.rooms.leave
          = wTenResp.rooms.leave
      ∧ (shouldProcessResponse wTenSyncer wTenResp "b10").2.rooms.join
          = wTenResp.rooms.join.filter
              (fun q => !(memberOf q.1
                (flaggedRoomIDs wTenSyncer.userID wTenResp.rooms.join)))
      ∧ (shouldProcessResponse wTenSyncer wTenResp "b10").2.rooms.invite
          = wTenResp.rooms.invite.filter
              (fun q => !(memberOf q.1
                (flaggedRoomIDs wTenSyncer.userID wTenResp.rooms.join)))
      ∧ (∀ tl : List Event, hasOwnJoin wTenSyncer.userID tl = true ↔
            ∃ e, e ∈ tl ∧ e.type = MemberEventType
              ∧ e.stateKey = some wTenSyncer.userID
              ∧ e.content.lookup "membership" = some (JsonValue.str "join"))) :=
  ⟨⟨by decide, by decide⟩,
   frameNonEmptySince wTenSyncer wTenResp "b10" (by decide) (by decide)⟩

/-- Witness for the C7 theorem at a fresh listener and singleton traces. -/
theorem scanEventsTerminationWitness :
    scanEvents NewDefaultListener [ScanStep.ctxDone "context canceled"]
        = ScanOutcome.retCtxErr "context canceled"
    ∧ (∀ e : Option String,
        scanEvents NewDefaultListener [ScanStep.ctxDone "context canceled"]
          ≠ ScanOutcome.retErr e)
    ∧ scanEvents NewDefaultListener [stop] = ScanOutcome.retErr NewDefaultListener.err
    ∧ scanEvents NewDefaultListener [ScanStep.closed]
        = ScanOutcome.retErr NewDefaultListener.err :=
  scanEventsTermination NewDefaultListener [] "context canceled"
